import Mathlib

/-!
Shallow embedding of the hudi-rs partition-pruning core:
`src/crates/core/src/exprs/mod.rs` (operator vocabulary) and
`src/crates/core/src/table/partition.rs` (filter compiler and partition
pruner). Rust `Result<T>` becomes `Except CoreError T`, Arrow scalars become
an explicit tagged sum `TypedScalar`, and the Arrow string-cast /
typed-comparison kernels are embedded for the primitive types the pruner is
exercised with (Date32, Utf8, Int32).
-/

deriving instance DecidableEq for Except

namespace Hudi

/-- Error type of the core, restricted to the variants the embedded code
produces: `InvalidPartitionPath`, `Unsupported`, Arrow cast/kernel errors and
UTF-8 decode errors (the latter two enter via `?` conversions). -/
inductive CoreError where
  | invalidPartitionPath : String → CoreError
  | unsupported : String → CoreError
  | arrowError : String → CoreError
  | utf8Error : CoreError
deriving DecidableEq, Repr

/-- Embeds `HudiOperator` from `exprs/mod.rs`: a closed set of comparison operators. -/
inductive HudiOperator where
  | Eq
  | Ne
  | Lt
  | Lte
  | Gt
  | Gte
deriving DecidableEq, Repr

/-- Embeds `impl Display for HudiOperator::fmt`: canonical token of each operator. -/
def HudiOperator.fmt : HudiOperator → String
  | .Eq => "="
  | .Ne => "!="
  | .Lt => "<"
  | .Lte => "<="
  | .Gt => ">"
  | .Gte => ">="

/-- Embeds `HudiOperator::TOKEN_OP_PAIRS`: the canonical token table. -/
def HudiOperator.TOKEN_OP_PAIRS : List (String × HudiOperator) :=
  [("=", .Eq), ("!=", .Ne), ("<", .Lt), ("<=", .Lte), (">", .Gt), (">=", .Gte)]

/-- ASCII lowercasing of a byte/code point, as in Rust `to_ascii_lowercase`. -/
def asciiLowerNat (n : Nat) : Nat :=
  if 65 ≤ n ∧ n ≤ 90 then n + 32 else n

/-- Rust `str::eq_ignore_ascii_case`: same length and bytes equal after ASCII
lowercasing (embedded at the char level; all compared tokens are ASCII). -/
def eqIgnoreAsciiCase (a b : String) : Bool :=
  a.data.length = b.data.length ∧
    (a.data.zip b.data).all fun p => asciiLowerNat p.1.toNat = asciiLowerNat p.2.toNat

/-- Embeds `impl FromStr for HudiOperator::from_str`: case-insensitive lookup in the
token table; unmatched tokens produce `anyhow!("Unsupported operator: {}", s)`,
embedded as an error message string. -/
def HudiOperator.from_str (s : String) : Except String HudiOperator :=
  match HudiOperator.TOKEN_OP_PAIRS.findSome?
      (fun p => if eqIgnoreAsciiCase p.1 s then some p.2 else none) with
  | some op => .ok op
  | none => .error ("Unsupported operator: " ++ s)

/-- Arrow `DataType`, restricted to the primitive types the pruner is used
with in this core (`Date32`, `Utf8`, `Int32`). -/
inductive DataType where
  | Date32
  | Utf8
  | Int32
deriving DecidableEq, Repr

/-- Arrow `Display` of a `DataType`, used in the `Unsupported` message. -/
def DataType.display : DataType → String
  | .Date32 => "Date32"
  | .Utf8 => "Utf8"
  | .Int32 => "Int32"

/-- A typed Arrow scalar (`Scalar<ArrayRef>` holding one value): the runtime
type tag plus the typed payload. `Date32` is days since the Unix epoch. -/
inductive TypedScalar where
  | date32 : Int → TypedScalar
  | utf8 : String → TypedScalar
  | int32 : Int → TypedScalar
deriving DecidableEq, Repr

/-- Arrow `Field`: name plus declared data type (nullability irrelevant here). -/
structure Field where
  name : String
  data_type : DataType
deriving DecidableEq, Repr

/-- Arrow `Schema`: an ordered field list. -/
structure Schema where
  fields : List Field
deriving DecidableEq, Repr

/-- Embeds `Schema::empty()`. -/
def Schema.empty : Schema := ⟨[]⟩

/-- Value of an ASCII decimal digit character, `none` for non-digits. -/
def digitVal (c : Char) : Option Nat :=
  if 48 ≤ c.toNat ∧ c.toNat ≤ 57 then some (c.toNat - 48) else none

/-- Parse a nonempty all-digit char list to its decimal value. -/
def parseDigits : List Char → Option Nat
  | [] => none
  | [c] => digitVal c
  | c :: rest =>
    match digitVal c, parseDigits rest with
    | some d, some n => some (d * 10 ^ rest.length + n)
    | _, _ => none

/-- Arrow strict cast of a string to `Int32`: optional sign, decimal digits,
value must fit in 32-bit two's complement range; anything else errors. -/
def parseInt32 (s : String) : Option Int :=
  let signed : Option Int :=
    match s.data with
    | '-' :: rest => (parseDigits rest).map fun n => -(n : Int)
    | '+' :: rest => (parseDigits rest).map fun n => (n : Int)
    | l => (parseDigits l).map fun n => (n : Int)
  signed.bind fun v =>
    if -2147483648 ≤ v ∧ v ≤ 2147483647 then some v else none

/-- Gregorian leap-year rule (chrono). -/
def isLeapYear (y : Int) : Bool :=
  y % 4 = 0 ∧ (y % 100 ≠ 0 ∨ y % 400 = 0)

/-- Days in a Gregorian month. -/
def daysInMonth (y m : Int) : Int :=
  if m = 2 then (if isLeapYear y then 29 else 28)
  else if m = 4 ∨ m = 6 ∨ m = 9 ∨ m = 11 then 30
  else 31

/-- Days since the Unix epoch of a civil date (Howard Hinnant's algorithm, as
used by chrono/Arrow for `Date32`). -/
def daysFromCivil (y m d : Int) : Int :=
  let y' := if m ≤ 2 then y - 1 else y
  let era := (if 0 ≤ y' then y' else y' - 399) / 400
  let yoe := y' - era * 400
  let mp := if 2 < m then m - 3 else m + 9
  let doy := (153 * mp + 2) / 5 + d - 1
  let doe := yoe * 365 + yoe / 4 - yoe / 100 + doy
  era * 146097 + doe - 719468

/-- Arrow strict cast of a string to `Date32`: `YYYY-MM-DD` with a valid
civil date, converted to days since the Unix epoch. -/
def parseDate32 (s : String) : Option Int :=
  match s.data with
  | [y1, y2, y3, y4, '-', m1, m2, '-', d1, d2] =>
    match digitVal y1, digitVal y2, digitVal y3, digitVal y4,
        digitVal m1, digitVal m2, digitVal d1, digitVal d2 with
    | some a, some b, some c, some d, some e, some f, some g, some h =>
      let y : Int := ((a * 10 + b) * 10 + c) * 10 + d
      let m : Int := e * 10 + f
      let dd : Int := g * 10 + h
      if 1 ≤ m ∧ m ≤ 12 ∧ 1 ≤ dd ∧ dd ≤ daysInMonth y m then
        some (daysFromCivil y m dd)
      else none
    | _, _, _, _, _, _, _, _ => none
  | _ => none

/-- Embeds `PartitionFilter::cast_value`: Arrow `cast_with_options` with
`safe: false` (strict) from a one-element string array to the target type;
a failed cast is an Arrow error carried out through `?`. -/
def cast_value (value : String) (data_type : DataType) : Except CoreError TypedScalar :=
  match data_type with
  | .Utf8 => .ok (.utf8 value)
  | .Int32 =>
    match parseInt32 value with
    | some n => .ok (.int32 n)
    | none => .error (.arrowError ("Cannot cast string " ++ value ++ " to value of Int32 type"))
  | .Date32 =>
    match parseDate32 value with
    | some n => .ok (.date32 n)
    | none => .error (.arrowError ("Cannot cast string " ++ value ++ " to value of Date32 type"))

/-- UTF-8 byte encoding of one Unicode scalar value. -/
def utf8EncodeScalar (n : Nat) : List Nat :=
  if n < 128 then [n]
  else if n < 2048 then [192 + n / 64, 128 + n % 64]
  else if n < 65536 then [224 + n / 4096, 128 + (n / 64) % 64, 128 + n % 64]
  else [240 + n / 262144, 128 + (n / 4096) % 64, 128 + (n / 64) % 64, 128 + n % 64]

/-- Rust `str::as_bytes`: the UTF-8 byte sequence of a string. -/
def utf8Encode (cs : List Char) : List Nat :=
  cs.foldr (fun c acc => utf8EncodeScalar c.toNat ++ acc) []

/-- Is the byte a UTF-8 continuation byte (`10xxxxxx`). -/
def isCont (b : Nat) : Bool := 128 ≤ b ∧ b < 192

/-- Strict UTF-8 decoding of a byte sequence (Rust `str::from_utf8`, as used
by `decode_utf8`): rejects continuation-byte starts, overlong encodings,
surrogates and out-of-range scalars. -/
def utf8Decode : List Nat → Option (List Char)
  | [] => some []
  | b :: rest =>
    if b < 128 then
      (utf8Decode rest).map fun cs => Char.ofNat b :: cs
    else if b < 194 then none
    else if b < 224 then
      match rest with
      | b1 :: rest1 =>
        if isCont b1 then
          (utf8Decode rest1).map fun cs => Char.ofNat ((b - 192) * 64 + (b1 - 128)) :: cs
        else none
      | _ => none
    else if b < 240 then
      match rest with
      | b1 :: b2 :: rest2 =>
        if isCont b1 ∧ isCont b2 then
          let n := (b - 224) * 4096 + (b1 - 128) * 64 + (b2 - 128)
          if 2048 ≤ n ∧ ¬(55296 ≤ n ∧ n ≤ 57343) then
            (utf8Decode rest2).map fun cs => Char.ofNat n :: cs
          else none
        else none
      | _ => none
    else if b < 245 then
      match rest with
      | b1 :: b2 :: b3 :: rest3 =>
        if isCont b1 ∧ isCont b2 ∧ isCont b3 then
          let n := (b - 240) * 262144 + (b1 - 128) * 4096 + (b2 - 128) * 64 + (b3 - 128)
          if 65536 ≤ n ∧ n ≤ 1114111 then
            (utf8Decode rest3).map fun cs => Char.ofNat n :: cs
          else none
        else none
      | _ => none
    else none

/-- Value of an ASCII hex digit byte, `none` otherwise. -/
def hexVal (b : Nat) : Option Nat :=
  if 48 ≤ b ∧ b ≤ 57 then some (b - 48)
  else if 97 ≤ b ∧ b ≤ 102 then some (b - 87)
  else if 65 ≤ b ∧ b ≤ 70 then some (b - 55)
  else none

/-- Embeds `percent_encoding::percent_decode` on bytes: `%XY` with two hex digits
becomes the byte `0xXY`; a `%` not followed by two hex digits is kept
verbatim. -/
def percentDecodeBytes : List Nat → List Nat
  | 37 :: h :: l :: rest =>
    match hexVal h, hexVal l with
    | some hv, some lv => (16 * hv + lv) :: percentDecodeBytes rest
    | _, _ => 37 :: percentDecodeBytes (h :: l :: rest)
  | b :: rest => b :: percentDecodeBytes rest
  | [] => []

/-- Embeds `percent_decode(path.as_bytes()).decode_utf8()`: percent-decode the byte
form of the string, then strictly re-validate as UTF-8; invalid UTF-8 is a
`Utf8Error` carried out through `?`. -/
def percentDecodeUtf8 (s : String) : Except CoreError String :=
  match utf8Decode (percentDecodeBytes (utf8Encode s.data)) with
  | some cs => .ok (String.mk cs)
  | none => .error .utf8Error

/-- Rust `str::split('/')` collected to a vector, at the char-list level:
always yields one more part than there are separators, so never empty. -/
def splitOnSlash : List Char → List (List Char)
  | [] => [[]]
  | c :: rest =>
    if c = '/' then [] :: splitOnSlash rest
    else
      match splitOnSlash rest with
      | [] => [[c]]
      | s :: ss => (c :: s) :: ss

/-- Rust `str::split_once('=')`: split at the first `=`, `none` if absent. -/
def splitOnceEq : List Char → Option (List Char × List Char)
  | [] => none
  | c :: rest =>
    if c = '=' then some ([], rest)
    else (splitOnceEq rest).map fun p => (c :: p.1, p.2)

/-- Iterator `collect::<Result<Vec<_>>>()`: apply `g` left to right, stopping
at (and returning) the first error, else return all results in order. -/
def collectExcept (g : α → Except CoreError β) : List α → Except CoreError (List β)
  | [] => .ok []
  | a :: as =>
    match g a with
    | .error e => .error e
    | .ok b =>
      match collectExcept g as with
      | .error e => .error e
      | .ok bs => .ok (b :: bs)

/-- Modelled from the spec: `Filter` (from `exprs/filter.rs`, not part of the
shown sources) is the generic untyped filter — "`{field_name: string,
operator: Operator, value: string}`". `ExprOperator` is the operator
vocabulary re-exported to the pruner. -/
structure Filter where
  field_name : String
  operator : HudiOperator
  value : String
deriving DecidableEq, Repr

/-- Modelled from the spec: `ExprOperator` as consumed by `partition.rs` is
the operator vocabulary of `exprs/mod.rs`. -/
abbrev ExprOperator := HudiOperator

/-- Modelled from the spec: the configuration consumed by the pruner
"supplies two booleans: hive-style layout and URL-encoding of path
segments", sourced from table configuration defaults if unset. -/
structure HudiConfigs where
  isHiveStylePartitioning : Bool
  isPartitionPathUrlencoded : Bool
deriving DecidableEq, Repr

/-- Embeds `PartitionFilter`: a schema-typed compiled filter. -/
structure PartitionFilter where
  field : Field
  operator : ExprOperator
  value : TypedScalar
deriving DecidableEq, Repr

/-- Arrow `Schema::field_with_name`: the first field with the given name. -/
def Schema.field_with_name (s : Schema) (name : String) : Option Field :=
  s.fields.find? fun f => f.name = name

/-- Embeds `impl TryFrom<(Filter, &Schema)> for PartitionFilter::try_from`: resolve
the field by name (absence is an `InvalidPartitionPath` error), then strictly
cast the literal into the field's type (failure is an `Unsupported` error
naming the target type). -/
def PartitionFilter.try_from (filter : Filter) (partition_schema : Schema) :
    Except CoreError PartitionFilter :=
  match partition_schema.field_with_name filter.field_name with
  | none => .error (.invalidPartitionPath "Partition path should be in schema.")
  | some field =>
    match cast_value filter.value field.data_type with
    | .error _ => .error (.unsupported ("Unable to cast " ++ field.data_type.display ++ "."))
    | .ok value => .ok { field := field, operator := filter.operator, value := value }

/-- Embeds `PartitionPruner`: compiled filters plus path-layout configuration. -/
structure PartitionPruner where
  schema : Schema
  is_hive_style : Bool
  is_url_encoded : Bool
  and_filters : List PartitionFilter
deriving DecidableEq, Repr

/-- Embeds `PartitionPruner::new`: compile every filter (all-or-nothing, first error
surfaced), then read the two layout flags from the configuration. -/
def PartitionPruner.new (and_filters : List Filter) (partition_schema : Schema)
    (hudi_configs : HudiConfigs) : Except CoreError PartitionPruner :=
  match collectExcept (fun f => PartitionFilter.try_from f partition_schema) and_filters with
  | .error e => .error e
  | .ok fs =>
    .ok { schema := partition_schema
          is_hive_style := hudi_configs.isHiveStylePartitioning
          is_url_encoded := hudi_configs.isPartitionPathUrlencoded
          and_filters := fs }

/-- Embeds `PartitionPruner::empty`: empty schema, no filters, both flags false. -/
def PartitionPruner.empty : PartitionPruner :=
  { schema := Schema.empty
    is_hive_style := false
    is_url_encoded := false
    and_filters := [] }

/-- Embeds `PartitionPruner::is_empty`: whether the compiled filter list is empty. -/
def PartitionPruner.is_empty (p : PartitionPruner) : Bool :=
  p.and_filters.isEmpty

/-- The URL-decoding step at the top of `parse_segments`. -/
def PartitionPruner.decodePath (p : PartitionPruner) (partition_path : String) :
    Except CoreError String :=
  if p.is_url_encoded then percentDecodeUtf8 partition_path
  else .ok partition_path

/-- The per-`(field, part)` body of `parse_segments`: hive-style check (exact
positional `name=value`), then strict cast of the raw value to the field's
type, yielding one `(name, scalar)` binding. -/
def parseOnePair (is_hive_style : Bool) (fp : Field × String) :
    Except CoreError (String × TypedScalar) :=
  let field := fp.1
  let part := fp.2
  let valueRes : Except CoreError String :=
    if is_hive_style then
      match splitOnceEq part.data with
      | none =>
        .error (.invalidPartitionPath ("Partition path should be hive-style but got " ++ part))
      | some nv =>
        if String.mk nv.1 ≠ field.name then
          .error (.invalidPartitionPath
            ("Partition path should contain " ++ field.name ++ " but got " ++ String.mk nv.1))
        else .ok (String.mk nv.2)
    else .ok part
  match valueRes with
  | .error e => .error e
  | .ok value =>
    match cast_value value field.data_type with
    | .error e => .error e
    | .ok scalar => .ok (field.name, scalar)

/-- Embeds `PartitionPruner::parse_segments`: optionally percent-decode, split on
`/`, require the segment count to equal the schema's field count, then zip
fields with segments positionally and parse each pair; the segment map is
embedded as the association list collected in schema order. -/
def PartitionPruner.parse_segments (p : PartitionPruner) (partition_path : String) :
    Except CoreError (List (String × TypedScalar)) :=
  match p.decodePath partition_path with
  | .error e => .error e
  | .ok decoded =>
    let parts := splitOnSlash decoded.data
    if parts.length ≠ p.schema.fields.length then
      .error (.invalidPartitionPath
        ("Partition path should have " ++ toString p.schema.fields.length ++
          " part(s) but got " ++ toString parts.length))
    else
      collectExcept (parseOnePair p.is_hive_style)
        (p.schema.fields.zip (parts.map String.mk))

/-- The Arrow typed comparison kernels (`eq`, `neq`, `lt`, `lt_eq`, `gt`,
`gt_eq`) applied to two scalars: values of the same runtime type compare by
that type's order (UTF-8 strings lexicographically by code point, which equals
Arrow's byte order); differently-typed scalars are an Arrow kernel error. -/
def compareScalars (op : ExprOperator) (a b : TypedScalar) : Except CoreError Bool :=
  let ordToBool (o : Ordering) : Bool :=
    match op with
    | .Eq => o = Ordering.eq
    | .Ne => o ≠ Ordering.eq
    | .Lt => o = Ordering.lt
    | .Lte => o ≠ Ordering.gt
    | .Gt => o = Ordering.gt
    | .Gte => o ≠ Ordering.lt
  match a, b with
  | .date32 x, .date32 y => .ok (ordToBool (compare x y))
  | .utf8 x, .utf8 y => .ok (ordToBool (compare x y))
  | .int32 x, .int32 y => .ok (ordToBool (compare x y))
  | _, _ => .error (.arrowError "Invalid comparison operation: differing scalar types")

/-- The per-filter body of `should_include`: look the filter's field up in
the parsed segment map; an absent field or an erroring comparison kernel is
`true` (include), otherwise the kernel's boolean verdict. -/
def evalFilter (segments : List (String × TypedScalar)) (filter : PartitionFilter) : Bool :=
  match segments.lookup filter.field.name with
  | some segment_value =>
    match compareScalars filter.operator segment_value filter.value with
    | .ok b => b
    | .error _ => true
  | none => true

/-- Embeds `PartitionPruner::should_include`: parse the path (any parse error is
`true`, include), then require every filter to evaluate to include. -/
def PartitionPruner.should_include (p : PartitionPruner) (partition_path : String) : Bool :=
  match p.parse_segments partition_path with
  | .error _ => true
  | .ok segments => p.and_filters.all (evalFilter segments)

/-- The partition schema of the repository's own tests:
`{date: Date32, category: Utf8, count: Int32}`. -/
def exampleSchema : Schema :=
  ⟨[⟨"date", .Date32⟩, ⟨"category", .Utf8⟩, ⟨"count", .Int32⟩]⟩

/-- Hive-style, non-URL-encoded configuration. -/
def cfgHive : HudiConfigs := ⟨true, false⟩

/-- Hive-style, URL-encoded configuration. -/
def cfgHiveUrl : HudiConfigs := ⟨true, true⟩

/-- The compiled pruner of the repository's `should_include` test:
`date > 2023-01-01 AND category = A AND count <= 100`, hive-style. -/
def examplePruner : PartitionPruner :=
  (PartitionPruner.new
    [⟨"date", .Gt, "2023-01-01"⟩, ⟨"category", .Eq, "A"⟩, ⟨"count", .Lte, "100"⟩]
    exampleSchema cfgHive).toOption.getD PartitionPruner.empty

/-- A filterless hive-style pruner over the example schema. -/
def emptyFilterPruner : PartitionPruner :=
  (PartitionPruner.new [] exampleSchema cfgHive).toOption.getD PartitionPruner.empty

/-- A filterless hive-style URL-encoded pruner over the example schema. -/
def encodedPruner : PartitionPruner :=
  (PartitionPruner.new [] exampleSchema cfgHiveUrl).toOption.getD PartitionPruner.empty

/-- The parsed segment map of `date=2023-02-01/category=A/count=10` under the
example schema (2023-02-01 is day 19389 since the epoch). -/
def exampleSegments : List (String × TypedScalar) :=
  [("date", .date32 19389), ("category", .utf8 "A"), ("count", .int32 10)]

theorem collectExcept_error_of_first (g : α → Except CoreError β) (l1 : List α) (x : α)
    (l2 : List α) (e : CoreError)
    (hok : ∀ a ∈ l1, ∃ b, g a = .ok b) (hx : g x = .error e) :
    collectExcept g (l1 ++ x :: l2) = .error e := by
  induction l1 with
  | nil =>
    show collectExcept g (x :: l2) = .error e
    unfold collectExcept
    rw [hx]
  | cons a as ih =>
    obtain ⟨b, hb⟩ := hok a (by simp)
    show collectExcept g (a :: (as ++ x :: l2)) = .error e
    unfold collectExcept
    rw [hb, ih (fun a' ha' => hok a' (by simp [ha']))]

theorem splitOnSlash_ne_nil (l : List Char) : splitOnSlash l ≠ [] := by
  cases l with
  | nil => simp [splitOnSlash]
  | cons c rest =>
    unfold splitOnSlash
    by_cases h : c = '/'
    · simp [h]
    · simp only [h, if_false]
      cases splitOnSlash rest <;> simp

/-- C2: for every pruner and path, if segment parsing fails for any reason,
`should_include` returns `true` (the `Bool` return type itself witnesses that
no error reaches the caller). -/
theorem C2_parse_error_fails_open (p : PartitionPruner) (path : String) (e : CoreError)
    (h : p.parse_segments path = .error e) :
    p.should_include path = true := by
  unfold PartitionPruner.should_include
  rw [h]

/-- Witness for C2: the empty-schema pruner fails to parse a one-segment path
(count mismatch) and includes it. -/
theorem C2_witness :
    PartitionPruner.empty.should_include "malformed" = true :=
  C2_parse_error_fails_open PartitionPruner.empty "malformed"
    (.invalidPartitionPath "Partition path should have 0 part(s) but got 1")
    (by decide)

/-- C3: each of the six canonical operator tokens parses (case-insensitively,
by construction of `from_str`) to the operator whose formatting yields the
canonical token back, and parsing the non-canonical token `??` fails with the
unsupported-operator error citing the token. -/
theorem C3_operator_round_trip :
    (HudiOperator.from_str "=" = .ok .Eq ∧ HudiOperator.Eq.fmt = "=") ∧
    (HudiOperator.from_str "!=" = .ok .Ne ∧ HudiOperator.Ne.fmt = "!=") ∧
    (HudiOperator.from_str "<" = .ok .Lt ∧ HudiOperator.Lt.fmt = "<") ∧
    (HudiOperator.from_str "<=" = .ok .Lte ∧ HudiOperator.Lte.fmt = "<=") ∧
    (HudiOperator.from_str ">" = .ok .Gt ∧ HudiOperator.Gt.fmt = ">") ∧
    (HudiOperator.from_str ">=" = .ok .Gte ∧ HudiOperator.Gte.fmt = ">=") ∧
    HudiOperator.from_str "??" = .error "Unsupported operator: ??" := by
  decide

/-- C9: a pruner built by `empty()` includes every input string, malformed
ones included: with an empty schema every split (at least one segment) fails
the count check, and parse failures are included. -/
theorem C9_empty_pruner_includes_everything (s : String) :
    PartitionPruner.empty.should_include s = true := by
  have hlen : ¬(splitOnSlash s.data).length = 0 := by
    intro h0
    exact splitOnSlash_ne_nil s.data (List.length_eq_zero.mp h0)
  unfold PartitionPruner.should_include PartitionPruner.parse_segments
  simp [PartitionPruner.empty, PartitionPruner.decodePath, Schema.empty, hlen]

/-- C10: whenever `is_empty()` is true the pruner includes every path (the
conjunction over zero filters is vacuously true, and parse failures are also
included), and `is_empty()` is exactly emptiness of the filter list,
independent of schema and layout flags. -/
theorem C10_no_filters_includes_everything (p : PartitionPruner) (path : String)
    (h : p.is_empty = true) :
    p.should_include path = true ∧ p.is_empty = p.and_filters.isEmpty := by
  refine ⟨?_, rfl⟩
  have hnil : p.and_filters = [] := by
    unfold PartitionPruner.is_empty at h
    exact List.isEmpty_iff.mp h
  unfold PartitionPruner.should_include
  cases hp : p.parse_segments path with
  | error e => rfl
  | ok segments => simp [hnil]

/-- Witness for C10: a pruner built via `new` with the non-empty example
schema and no filters includes a well-formed and an arbitrary path. -/
theorem C10_witness :
    emptyFilterPruner.should_include "whatever" = true ∧
      emptyFilterPruner.is_empty = emptyFilterPruner.and_filters.isEmpty :=
  C10_no_filters_includes_everything emptyFilterPruner "whatever" (by decide)

/-- C1: for every pruner and every path whose segments parse successfully,
`should_include` is `true` iff every compiled filter evaluates to include,
where one filter includes when its field is absent from the parsed segment
map, or the typed comparison kernel errors, or the operator-specific
comparison of the parsed scalar against the filter's typed literal is true. -/
theorem C1_should_include_iff_all_filters (p : PartitionPruner) (path : String)
    (segments : List (String × TypedScalar))
    (h : p.parse_segments path = .ok segments) :
    p.should_include path = true ↔
      ∀ f ∈ p.and_filters,
        segments.lookup f.field.name = none ∨
        ∃ v, segments.lookup f.field.name = some v ∧
          ((∃ e, compareScalars f.operator v f.value = .error e) ∨
            compareScalars f.operator v f.value = .ok true) := by
  unfold PartitionPruner.should_include
  rw [h, List.all_eq_true]
  have hfit : ∀ f : PartitionFilter, evalFilter segments f = true ↔
      (segments.lookup f.field.name = none ∨
        ∃ v, segments.lookup f.field.name = some v ∧
          ((∃ e, compareScalars f.operator v f.value = .error e) ∨
            compareScalars f.operator v f.value = .ok true)) := by
    intro f
    unfold evalFilter
    cases hl : segments.lookup f.field.name with
    | none => simp
    | some v =>
      simp only [reduceCtorEq, false_or]
      constructor
      · intro hb
        refine ⟨v, rfl, ?_⟩
        cases hc : compareScalars f.operator v f.value with
        | error e => exact Or.inl ⟨e, rfl⟩
        | ok b =>
          rw [hc] at hb
          simp at hb
          exact Or.inr (by rw [hb])
      · rintro ⟨w, hw, hrest⟩
        cases hw
        rcases hrest with ⟨e, he⟩ | hok
        · rw [he]
        · rw [hok]
  constructor
  · intro hall f hf
    exact (hfit f).mp (hall f hf)
  · intro hall f hf
    exact (hfit f).mpr (hall f hf)

/-- Witness for C1: the example pruner on the parsed path
`date=2023-02-01/category=A/count=10`. -/
theorem C1_witness :
    examplePruner.should_include "date=2023-02-01/category=A/count=10" = true ↔
      ∀ f ∈ examplePruner.and_filters,
        exampleSegments.lookup f.field.name = none ∨
        ∃ v, exampleSegments.lookup f.field.name = some v ∧
          ((∃ e, compareScalars f.operator v f.value = .error e) ∨
            compareScalars f.operator v f.value = .ok true) :=
  C1_should_include_iff_all_filters examplePruner
    "date=2023-02-01/category=A/count=10" exampleSegments (by decide)

/-- C4: pruner construction compiles every filter and is all-or-nothing: if
the filters before position i all compile and the filter at position i fails
to compile with error e, `new` returns e and no pruner is produced. -/
theorem C4_new_all_or_nothing (l1 l2 : List Filter) (f : Filter) (schema : Schema)
    (cfg : HudiConfigs) (e : CoreError)
    (hok : ∀ g ∈ l1, ∃ pf, PartitionFilter.try_from g schema = .ok pf)
    (herr : PartitionFilter.try_from f schema = .error e) :
    PartitionPruner.new (l1 ++ f :: l2) schema cfg = .error e := by
  unfold PartitionPruner.new
  rw [collectExcept_error_of_first _ l1 f l2 e hok herr]

/-- Witness for C4: a filter whose literal `not_a_number` cannot be strictly
cast to the declared `Int32` type makes construction fail. -/
theorem C4_witness :
    PartitionPruner.new [⟨"count", .Eq, "not_a_number"⟩] exampleSchema cfgHive
      = .error (.unsupported "Unable to cast Int32.") :=
  C4_new_all_or_nothing [] [] ⟨"count", .Eq, "not_a_number"⟩ exampleSchema cfgHive
    (.unsupported "Unable to cast Int32.")
    (by intro g hg; exact absurd hg (List.not_mem_nil g))
    (by decide)

/-- C5: when the decoded path splits into a number of segments different from
the schema's field count, `parse_segments` fails with `InvalidPartitionPath`
naming expected and actual counts, and `should_include` returns `true`. -/
theorem C5_segment_count_mismatch (p : PartitionPruner) (path decoded : String)
    (hdec : p.decodePath path = .ok decoded)
    (hlen : (splitOnSlash decoded.data).length ≠ p.schema.fields.length) :
    p.parse_segments path = .error (.invalidPartitionPath
        ("Partition path should have " ++ toString p.schema.fields.length ++
          " part(s) but got " ++ toString (splitOnSlash decoded.data).length)) ∧
      p.should_include path = true := by
  have hp : p.parse_segments path = .error (.invalidPartitionPath
      ("Partition path should have " ++ toString p.schema.fields.length ++
        " part(s) but got " ++ toString (splitOnSlash decoded.data).length)) := by
    unfold PartitionPruner.parse_segments
    rw [hdec]
    simp [hlen]
  exact ⟨hp, by unfold PartitionPruner.should_include; rw [hp]⟩

/-- Witness for C5: a four-segment path against the three-field example
schema fails with the counts named, and is included. -/
theorem C5_witness :
    examplePruner.parse_segments "date=2023-02-01/category=A/count=10/extra"
        = .error (.invalidPartitionPath "Partition path should have 3 part(s) but got 4") ∧
      examplePruner.should_include "date=2023-02-01/category=A/count=10/extra" = true :=
  C5_segment_count_mismatch examplePruner "date=2023-02-01/category=A/count=10/extra"
    "date=2023-02-01/category=A/count=10/extra" (by decide) (by decide)

/-- C8: a generic filter whose field name is absent from the partition schema
fails to compile with the invalid-partition-path class error, and this
failure is fatal to pruner construction. -/
theorem C8_field_not_found (filter : Filter) (schema : Schema) (cfg : HudiConfigs)
    (h : schema.field_with_name filter.field_name = none) :
    PartitionFilter.try_from filter schema
        = .error (.invalidPartitionPath "Partition path should be in schema.") ∧
      PartitionPruner.new [filter] schema cfg
        = .error (.invalidPartitionPath "Partition path should be in schema.") := by
  have h1 : PartitionFilter.try_from filter schema
      = .error (.invalidPartitionPath "Partition path should be in schema.") := by
    unfold PartitionFilter.try_from
    rw [h]
  refine ⟨h1, ?_⟩
  unfold PartitionPruner.new collectExcept
  rw [h1]

/-- Witness for C8: a filter on `invalid_field` against the example schema. -/
theorem C8_witness :
    PartitionFilter.try_from ⟨"invalid_field", .Eq, "2023-01-01"⟩ exampleSchema
        = .error (.invalidPartitionPath "Partition path should be in schema.") ∧
      PartitionPruner.new [⟨"invalid_field", .Eq, "2023-01-01"⟩] exampleSchema cfgHive
        = .error (.invalidPartitionPath "Partition path should be in schema.") :=
  C8_field_not_found ⟨"invalid_field", .Eq, "2023-01-01"⟩ exampleSchema cfgHive (by decide)

/-- C6: with hive-style layout, at the first position whose segment either
has no `=` or carries a name different from the positionally expected field
name (all earlier pairs parsing fine), `parse_segments` fails with
`InvalidPartitionPath`; assignment is by position, so out-of-order hive
segments are rejected (see the witness). -/
theorem C6_hive_positional_name_check (p : PartitionPruner) (path decoded : String)
    (pre : List (Field × String)) (fld : Field) (seg : String)
    (post : List (Field × String))
    (hhive : p.is_hive_style = true)
    (hdec : p.decodePath path = .ok decoded)
    (hlen : (splitOnSlash decoded.data).length = p.schema.fields.length)
    (hzip : p.schema.fields.zip ((splitOnSlash decoded.data).map String.mk)
        = pre ++ (fld, seg) :: post)
    (hok : ∀ q ∈ pre, ∃ r, parseOnePair p.is_hive_style q = .ok r)
    (hfail : splitOnceEq seg.data = none ∨
        ∃ nv, splitOnceEq seg.data = some nv ∧ String.mk nv.1 ≠ fld.name) :
    ∃ m, p.parse_segments path = .error (.invalidPartitionPath m) := by
  have hpair : ∃ m, parseOnePair p.is_hive_style (fld, seg)
      = .error (.invalidPartitionPath m) := by
    rcases hfail with hnone | ⟨nv, hnv, hne⟩
    · refine ⟨"Partition path should be hive-style but got " ++ seg, ?_⟩
      simp [parseOnePair, hhive, hnone]
    · refine ⟨"Partition path should contain " ++ fld.name ++ " but got " ++ String.mk nv.1, ?_⟩
      simp [parseOnePair, hhive, hnv, hne]
  obtain ⟨m, hm⟩ := hpair
  refine ⟨m, ?_⟩
  unfold PartitionPruner.parse_segments
  rw [hdec]
  simp only [hlen, ne_eq, not_true_eq_false, if_false, hzip]
  exact collectExcept_error_of_first _ pre (fld, seg) post _ hok hm

/-- Witness for C6: the out-of-order hive path `category=A/date=.../count=...`
against the example schema `[date, category, count]` is rejected at position 0
even though both names exist in the schema. -/
theorem C6_witness :
    ∃ m, examplePruner.parse_segments "category=A/date=2023-02-01/count=10"
      = .error (.invalidPartitionPath m) :=
  C6_hive_positional_name_check examplePruner "category=A/date=2023-02-01/count=10"
    "category=A/date=2023-02-01/count=10"
    [] ⟨"date", .Date32⟩ "category=A"
    [(⟨"category", .Utf8⟩, "date=2023-02-01"), (⟨"count", .Int32⟩, "count=10")]
    (by decide) (by decide) (by decide) (by decide)
    (by intro q hq; exact absurd hq (List.not_mem_nil q))
    (Or.inr ⟨("category".data, "A".data), by decide, by decide⟩)

/-- C7: with URL-encoding enabled, the whole path is percent-decoded before
segmenting: a successful decode parses exactly as the decoded path does under
the same pruner with URL-encoding off, and a decode failure is a parse error
that `should_include` converts to include. -/
theorem C7_url_decode_before_split (p : PartitionPruner) (path : String)
    (henc : p.is_url_encoded = true) :
    (∀ s, percentDecodeUtf8 path = .ok s →
      p.parse_segments path
        = PartitionPruner.parse_segments { p with is_url_encoded := false } s) ∧
    (∀ e, percentDecodeUtf8 path = .error e →
      p.parse_segments path = .error e ∧ p.should_include path = true) := by
  constructor
  · intro s hs
    unfold PartitionPruner.parse_segments PartitionPruner.decodePath
    rw [henc]
    simp [hs]
  · intro e he
    have hp : p.parse_segments path = .error e := by
      unfold PartitionPruner.parse_segments PartitionPruner.decodePath
      rw [henc]
      simp [he]
    exact ⟨hp, by unfold PartitionPruner.should_include; rw [hp]⟩

/-- Witness for C7: the fully percent-encoded hive path of the repository's
URL-encoding test parses exactly like its decoded form with encoding off. -/
theorem C7_witness :
    encodedPruner.parse_segments "date%3D2023-02-01%2Fcategory%3DA%2Fcount%3D10"
      = PartitionPruner.parse_segments { encodedPruner with is_url_encoded := false }
          "date=2023-02-01/category=A/count=10" :=
  (C7_url_decode_before_split encodedPruner
      "date%3D2023-02-01%2Fcategory%3DA%2Fcount%3D10" (by decide)).1
    "date=2023-02-01/category=A/count=10" (by decide)

end Hudi
